import Mathlib

/-!
Shallow embedding of `src/server.js` (image-optimizer-api).

The service has two variants of one size-constrained encoding controller:

* `ensureMaxSize` — the iterative descent loop (at most 15 encode attempts,
  lines 30-89 of the first variant);
* `fastOptimize` — the single-shot analytic-correction fast path
  (lines 249-378 of the second variant).

The codec (the `sharp` library) is external: one encode operation is
modelled as an oracle `enc : Option Codec → Int → Option Nat → Nat`
giving the byte length of the buffer produced for a codec selection,
a quality value and an optional resize width.  The codec is deterministic,
so a produced buffer is identified by the `(quality, width)` parameters of
the encode call that produced it (every attempt re-derives its view from the
same immutable source instance).

Numeric conventions: JavaScript numbers that hold integers are modelled as
`Int` (quality) and `Nat` (widths and byte sizes; `sharp` rejects negative
widths before any encode completes, so only nonnegative widths reach the
loop).  `Math.floor(width * 0.8)` on those integers equals `4 * width / 5`
in natural-number division, and the fast path's floating-point
`Math.floor(targetWidth * Math.sqrt(budget / size) * 0.95)` is modelled by
the exact real value of that expression, which `correctedWidth` computes
with integer arithmetic.
-/

namespace ImageOptimizer

/-- `MAX_OUTPUT_SIZE = 9 * 1024 * 1024` (server.js line 10): the fixed byte
budget. -/
def MAX_OUTPUT_SIZE : Nat := 9 * 1024 * 1024

/-- The format-specific encoders the `switch` on `format.toLowerCase()`
recognises (server.js lines 45-59). -/
inductive Codec where
  | jpeg
  | png
  | webp
  | avif
deriving DecidableEq, Repr

/-- ASCII lower-casing of one character, as `String.prototype.toLowerCase`
acts on the ASCII format tokens involved. -/
def jsLowerChar (c : Char) : Char :=
  if 'A' ≤ c ∧ c ≤ 'Z' then Char.ofNat (c.toNat + 32) else c

/-- `format.toLowerCase()` on ASCII strings. -/
def jsToLower (s : String) : String :=
  String.mk (s.data.map jsLowerChar)

/-- The `switch (format.toLowerCase())` dispatch (server.js lines 45-59).
There is no `default` case in the source: an unrecognised token selects no
format-specific encoder (`none`) and the pipeline proceeds without one. -/
def selectCodec (format : String) : Option Codec :=
  match jsToLower format with
  | "jpeg" => some Codec.jpeg
  | "jpg" => some Codec.jpeg
  | "png" => some Codec.png
  | "webp" => some Codec.webp
  | "avif" => some Codec.avif
  | _ => none

/-- The parameter adjustment applied after an over-budget attempt
(server.js lines 69-77):

    if (quality > 60)      quality -= 10;
    else if (!width)       width = 8000;
    else if (width > 2000) width = Math.floor(width * 0.8);
    else                   quality = Math.max(50, quality - 5);

`width` is the JS variable: `none` models `null`/`NaN` and `some 0` models
the falsy value `0`, both of which take the `!width` branch. -/
def adjust (q : Int) (w : Option Nat) : Int × Option Nat :=
  if 60 < q then (q - 10, w)
  else
    match w with
    | none => (q, some 8000)
    | some n =>
      if n = 0 then (q, some 8000)
      else if 2000 < n then (q, some (4 * n / 5))
      else (max 50 (q - 5), some n)

/-- `adjust` on a `(quality, width)` pair. -/
def step (p : Int × Option Nat) : Int × Option Nat :=
  adjust p.1 p.2

/-- The `while (attempts < maxAttempts)` loop of `ensureMaxSize`
(server.js lines 37-85), on the loop state `p = (quality, width)`, with the
remaining iteration allowance as fuel.  Each iteration performs one encode
(`enc p.1 p.2` is the byte length of the buffer); the result lists the
`(quality, width)` parameters of every encode performed, in order, together
with whether the last one met the budget.  The `buffer` variable of the
source always holds the output of the last listed attempt. -/
def runLoop (enc : Int → Option Nat → Nat) :
    Nat → Int × Option Nat → List (Int × Option Nat) × Bool
  | 0, _ => ([], false)
  | Nat.succ fuel, p =>
    if enc p.1 p.2 ≤ MAX_OUTPUT_SIZE then ([p], true)
    else
      (p :: (runLoop enc fuel (step p)).1, (runLoop enc fuel (step p)).2)

/-- Outcome of one `ensureMaxSize` invocation: the codec selected for every
attempt, the trace of encode parameters, and whether the returned buffer met
the budget. -/
structure FitResult where
  codec : Option Codec
  trace : List (Int × Option Nat)
  met : Bool
deriving DecidableEq, Repr

/-- `ensureMaxSize(sharpInstance, format, initialQuality, maxWidth)`
(server.js lines 30-89): run the bounded loop with `maxAttempts = 15`. -/
def ensureMaxSize (enc : Option Codec → Int → Option Nat → Nat)
    (format : String) (initialQuality : Int) (maxWidth : Option Nat) :
    FitResult :=
  ⟨selectCodec format,
   (runLoop (enc (selectCodec format)) 15 (initialQuality, maxWidth)).1,
   (runLoop (enc (selectCodec format)) 15 (initialQuality, maxWidth)).2⟩

/-- Number of encode attempts performed. -/
def FitResult.attempts (r : FitResult) : Nat :=
  r.trace.length

/-- The `(quality, width)` parameters of the encode whose buffer the
invocation returns (the source's `buffer` variable when the function
returns): the last attempt of the trace. -/
def FitResult.buffer (r : FitResult) : Option (Int × Option Nat) :=
  r.trace.getLast?

/-! ### The HTTP route layer (quality/format parsing) -/

/-- Whitespace `parseInt` skips before reading digits. -/
def jsIsSpace (c : Char) : Bool :=
  c = ' ' ∨ c = '\t' ∨ c = '\n' ∨ c = '\r'

/-- Value of one digit in the given base, `none` for a non-digit. -/
def digitVal (base : Nat) (c : Char) : Option Nat :=
  if '0' ≤ c ∧ c ≤ '9' ∧ c.toNat - '0'.toNat < base then
    some (c.toNat - '0'.toNat)
  else if 10 < base ∧ 'a' ≤ c ∧ c.toNat - 'a'.toNat + 10 < base then
    some (c.toNat - 'a'.toNat + 10)
  else if 10 < base ∧ 'A' ≤ c ∧ c.toNat - 'A'.toNat + 10 < base then
    some (c.toNat - 'A'.toNat + 10)
  else none

/-- Accumulate the longest digit prefix; `none` when no digit was seen
(which is `parseInt`'s `NaN`). -/
def digitsPrefix (base : Nat) : List Char → Nat → Bool → Option Nat
  | [], acc, seen => if seen then some acc else none
  | c :: rest, acc, seen =>
    match digitVal base c with
    | some d => digitsPrefix base rest (acc * base + d) true
    | none => if seen then some acc else none

/-- JavaScript `parseInt(field)` on a form field: `none` (an absent field)
and every non-numeric string parse to `NaN`, modelled as `none`; otherwise
leading whitespace, an optional sign, an optional `0x`/`0X` hex prefix and
the longest digit prefix are read. -/
def parseIntJS : Option String → Option Int
  | none => none
  | some s =>
    let cs := s.data.dropWhile jsIsSpace
    let signed : Int × List Char :=
      match cs with
      | '-' :: rest => (-1, rest)
      | '+' :: rest => (1, rest)
      | rest => (1, rest)
    let core : Option Nat :=
      match signed.2 with
      | '0' :: 'x' :: rest => digitsPrefix 16 rest 0 false
      | '0' :: 'X' :: rest => digitsPrefix 16 rest 0 false
      | rest => digitsPrefix 10 rest 0 false
    core.map (fun n => signed.1 * n)

/-- JavaScript `v || d` on a number `v` that may be `NaN` (`none`): falsy
values (`NaN` and `0`) give the default. -/
def jsOrInt (v : Option Int) (d : Int) : Int :=
  match v with
  | none => d
  | some n => if n = 0 then d else n

/-- JavaScript `v || d` on an optional string: `undefined` and `""` are
falsy. -/
def jsOrStr (v : Option String) (d : String) : String :=
  match v with
  | none => d
  | some s => if s = "" then d else s

/-- The multipart form fields the three POST routes read. -/
structure ReqBody where
  quality : Option String
  format : Option String
  width : Option String
  height : Option String
  fit : Option String
deriving Repr

/-- `parseInt(req.body.quality) || 80` (server.js lines 110, 144, 187). -/
def requestQuality (b : ReqBody) : Int :=
  jsOrInt (parseIntJS b.quality) 80

/-- The width argument `/resize` hands to `ensureMaxSize`
(server.js line 161): `parseInt(req.body.width)`, where `NaN` behaves as an
absent width inside the loop. -/
def requestWidth (b : ReqBody) : Option Nat :=
  match parseIntJS b.width with
  | none => none
  | some n => some n.toNat

/-- `POST /optimize` (server.js lines 104-134): the `ensureMaxSize`
invocation it performs. -/
def optimizeRoute (enc : Option Codec → Int → Option Nat → Nat)
    (b : ReqBody) : FitResult :=
  ensureMaxSize enc (jsOrStr b.format "webp") (requestQuality b) none

/-- `POST /resize` (server.js lines 136-178): the `ensureMaxSize`
invocation it performs (the route-level `resize` of the shared instance is
part of the codec oracle). -/
def resizeRoute (enc : Option Codec → Int → Option Nat → Nat)
    (b : ReqBody) : FitResult :=
  ensureMaxSize enc (jsOrStr b.format "webp") (requestQuality b)
    (requestWidth b)

/-- `POST /convert` (server.js lines 180-204): the `ensureMaxSize`
invocation it performs. -/
def convertRoute (enc : Option Codec → Int → Option Nat → Nat)
    (b : ReqBody) : FitResult :=
  ensureMaxSize enc (jsOrStr b.format "webp") (requestQuality b) none

/-! ### The fast-path variant (`fastOptimize`) -/

/-- The `metadata.width`/`metadata.height` the fast path reads. -/
structure ImageMeta where
  width : Nat
  height : Nat
deriving DecidableEq, Repr

/-- The pixel-count width caps applied before the first encode
(server.js lines 257-263 of the fast variant):

    if (originalPixels > 100000000)      targetWidth = min(targetWidth, 10000);
    else if (originalPixels > 50000000)  targetWidth = min(targetWidth, 12000);
    else if (originalPixels > 20000000)  targetWidth = min(targetWidth, 15000);
-/
def capTargetWidth (base pixels : Nat) : Nat :=
  if 100000000 < pixels then min base 10000
  else if 50000000 < pixels then min base 12000
  else if 20000000 < pixels then min base 15000
  else base

/-- The corrected width of the fast path's second encode
(lines 324-325 of the fast variant):
`Math.floor(targetWidth * Math.sqrt(MAX_OUTPUT_SIZE / size) * 0.95)`,
modelled as the exact real value of that expression:
`⌊tw * √(budget / size) * (19/20)⌋ = Nat.sqrt ⌊tw² * (361/400) * budget / size⌋`. -/
def correctedWidth (tw size : Nat) : Nat :=
  Nat.sqrt (361 * tw * tw * MAX_OUTPUT_SIZE / (400 * size))

/-- The corrected quality of the fast path's second encode (line 326):
`Math.max(60, Math.floor(quality * 0.85))`, with `0.85 = 17/20`. -/
def correctedQuality (q : Int) : Int :=
  max 60 (17 * q / 20)

/-- Outcome of one `fastOptimize` invocation: the codec, the capped target
width, the parameters of the first and of the final encode, how many encode
operations ran, and whether the returned buffer met the budget. -/
structure FastResult where
  codec : Option Codec
  targetWidth : Nat
  firstParams : Int × Option Nat
  finalParams : Int × Option Nat
  encodes : Nat
  met : Bool
deriving DecidableEq, Repr

/-- `targetWidth = maxWidth || metadata.width` (line 255 of the fast
variant): a falsy `maxWidth` (absent, `NaN` or `0`) falls back to the
native width. -/
def jsBaseWidth (maxWidth : Option Nat) (metaWidth : Nat) : Nat :=
  match maxWidth with
  | none => metaWidth
  | some n => if n = 0 then metaWidth else n

/-- The fast path's target width after the pixel-count caps. -/
def fastTargetWidth (maxWidth : Option Nat) (meta : ImageMeta) : Nat :=
  capTargetWidth (jsBaseWidth maxWidth meta.width) (meta.width * meta.height)

/-- The width parameter of the fast path's first encode: the source resizes
only when `targetWidth < metadata.width` (line 267 of the fast variant). -/
def fastFirstWidth (maxWidth : Option Nat) (meta : ImageMeta) : Option Nat :=
  if fastTargetWidth maxWidth meta < meta.width then
    some (fastTargetWidth maxWidth meta)
  else none

/-- `fastOptimize(sharpInstance, format, quality, maxWidth)`
(lines 249-378 of the fast variant).  `targetWidth = maxWidth || metadata.width`
is capped by pixel count; the first encode resizes only when the target is
below the native width; an over-budget first encode triggers exactly one
analytic correction and a second, final encode (whose resize is
unconditional in the source, line 329). -/
def fastOptimize (enc : Option Codec → Int → Option Nat → Nat)
    (format : String) (quality : Int) (maxWidth : Option Nat)
    (meta : ImageMeta) : FastResult :=
  if enc (selectCodec format) quality (fastFirstWidth maxWidth meta) ≤
      MAX_OUTPUT_SIZE then
    ⟨selectCodec format, fastTargetWidth maxWidth meta,
     (quality, fastFirstWidth maxWidth meta),
     (quality, fastFirstWidth maxWidth meta), 1, true⟩
  else
    ⟨selectCodec format, fastTargetWidth maxWidth meta,
     (quality, fastFirstWidth maxWidth meta),
     (correctedQuality quality,
      some (correctedWidth (fastTargetWidth maxWidth meta)
        (enc (selectCodec format) quality (fastFirstWidth maxWidth meta)))),
     2,
     enc (selectCodec format) (correctedQuality quality)
       (some (correctedWidth (fastTargetWidth maxWidth meta)
         (enc (selectCodec format) quality (fastFirstWidth maxWidth meta)))) ≤
       MAX_OUTPUT_SIZE⟩

/-! ### The spec-side adjustment policy, for the refinement claim -/

/-- The adjustment cascade as section 4.2 of the specification words it:
quality above 60 drops by 10; else, with no width constraint yet applied
(a width of `0` constrains nothing, the loop treats it exactly as an absent
width), the width 8000 is introduced; else a width above 2000 shrinks by the
factor 0.8, floor-rounded; else quality drops by 5, floored at 50. -/
def specAdjust (q : Int) (w : Option Nat) : Int × Option Nat :=
  if 60 < q then (q - 10, w)
  else if w.getD 0 = 0 then (q, some 8000)
  else if 2000 < w.getD 0 then
    (q, some (Nat.floor ((w.getD 0 : ℚ) * (8 / 10))))
  else (max 50 (q - 5), w)

/-! ### Concrete codec oracles, used to instantiate the results -/

/-- A codec oracle whose every encode exceeds the byte budget (an image no
parameter choice can compress under 9 MiB). -/
def encAlwaysOver : Option Codec → Int → Option Nat → Nat :=
  fun _ _ _ => MAX_OUTPUT_SIZE + 1

/-- A codec oracle whose every encode meets the byte budget. -/
def encAlwaysSmall : Option Codec → Int → Option Nat → Nat :=
  fun _ _ _ => 0

/-- A request body whose `quality` form field is the explicit string "0". -/
def bodyQualityZero : ReqBody :=
  ⟨some "0", none, none, none, none⟩

/-! ### Loop lemmas -/

/-- One unfolding of the loop. -/
theorem runLoop_succ (enc : Int → Option Nat → Nat) (fuel : Nat)
    (p : Int × Option Nat) :
    runLoop enc (fuel + 1) p =
      if enc p.1 p.2 ≤ MAX_OUTPUT_SIZE then ([p], true)
      else (p :: (runLoop enc fuel (step p)).1,
            (runLoop enc fuel (step p)).2) :=
  rfl

/-- The loop performs at most `fuel` encodes. -/
theorem runLoop_length_le (enc : Int → Option Nat → Nat) :
    ∀ (fuel : Nat) (p : Int × Option Nat),
      (runLoop enc fuel p).1.length ≤ fuel := by
  intro fuel
  induction fuel with
  | zero => intro p; simp [runLoop]
  | succ f ih =>
    intro p
    by_cases hb : enc p.1 p.2 ≤ MAX_OUTPUT_SIZE
    · simp [runLoop_succ, hb]
    · simp only [runLoop_succ, hb, if_neg, if_false, List.length_cons]
      exact Nat.succ_le_succ (ih (step p))

/-- With positive fuel the loop performs at least one encode. -/
theorem runLoop_length_pos (enc : Int → Option Nat → Nat) (fuel : Nat)
    (p : Int × Option Nat) :
    0 < (runLoop enc (fuel + 1) p).1.length := by
  by_cases hb : enc p.1 p.2 ≤ MAX_OUTPUT_SIZE <;>
    simp [runLoop_succ, hb]

/-- The `i`-th encode of the loop runs with the parameters obtained by `i`
applications of the adjustment to the initial state. -/
theorem runLoop_getElem (enc : Int → Option Nat → Nat) :
    ∀ (fuel : Nat) (p r : Int × Option Nat) (i : Nat),
      (runLoop enc fuel p).1[i]? = some r → r = step^[i] p := by
  intro fuel
  induction fuel with
  | zero =>
    intro p r i h
    simp [runLoop] at h
  | succ f ih =>
    intro p r i h
    by_cases hb : enc p.1 p.2 ≤ MAX_OUTPUT_SIZE
    · cases i with
      | zero =>
        simp [runLoop_succ, hb] at h
        simp [h]
      | succ j =>
        simp [runLoop_succ, hb] at h
    · cases i with
      | zero =>
        simp [runLoop_succ, hb] at h
        simp [h]
      | succ j =>
        simp only [runLoop_succ, hb, if_neg, if_false,
          List.getElem?_cons_succ] at h
        rw [Function.iterate_succ_apply]
        exact ih (step p) r j h

/-- When every encode exceeds the budget, the loop exhausts its fuel and
ends unmet. -/
theorem runLoop_of_over (enc : Int → Option Nat → Nat)
    (hover : ∀ q w, MAX_OUTPUT_SIZE < enc q w) :
    ∀ (fuel : Nat) (p : Int × Option Nat),
      (runLoop enc fuel p).1.length = fuel ∧ (runLoop enc fuel p).2 = false := by
  intro fuel
  induction fuel with
  | zero => intro p; simp [runLoop]
  | succ f ih =>
    intro p
    have hb : ¬ enc p.1 p.2 ≤ MAX_OUTPUT_SIZE := Nat.not_le.2 (hover p.1 p.2)
    simp only [runLoop_succ, hb, if_neg, if_false, List.length_cons]
    exact ⟨by rw [(ih (step p)).1], (ih (step p)).2⟩

/-- The first encode of the loop runs with the initial parameters. -/
theorem runLoop_head (enc : Int → Option Nat → Nat) (fuel : Nat)
    (p : Int × Option Nat) :
    (runLoop enc (fuel + 1) p).1[0]? = some p := by
  by_cases hb : enc p.1 p.2 ≤ MAX_OUTPUT_SIZE <;>
    simp [runLoop_succ, hb]

/-! ### Adjustment lemmas -/

/-- `Math.floor(width * 0.8)` on a nonnegative integer width is `4 * width / 5`
in natural-number division. -/
theorem floor_mul_four_fifths (n : ℕ) :
    Nat.floor ((n : ℚ) * (8 / 10)) = 4 * n / 5 := by
  rw [show (n : ℚ) * (8 / 10) = ((4 * n : ℕ) : ℚ) / ((5 : ℕ) : ℚ) by
    push_cast; ring]
  rw [Nat.floor_div_nat, Nat.floor_natCast]

/-- The adjustment never takes a quality that is at least 50 below 50. -/
theorem adjust_quality_ge (q : Int) (w : Option Nat) (h : 50 ≤ q) :
    50 ≤ (adjust q w).1 := by
  cases w with
  | none =>
    simp only [adjust]
    split_ifs <;> simp <;> omega
  | some n =>
    simp only [adjust]
    split_ifs <;> simp <;> omega

/-- An applied (nonzero) width stays applied and never grows under the
adjustment. -/
theorem adjust_width_mono (q : Int) (n : Nat) (hn : n ≠ 0) :
    (adjust q (some n)).2.getD 0 ≠ 0 ∧ (adjust q (some n)).2.getD 0 ≤ n := by
  simp only [adjust]
  split_ifs <;> simp <;> omega

/-- At the quality floor and a width above 2000, the adjustment shrinks the
width to `4 * n / 5`, a strict decrease. -/
theorem adjust_width_shrink (q : Int) (n : Nat) (hq : q = 50)
    (hn : 2000 < n) :
    (adjust q (some n)).2 = some (4 * n / 5) ∧ 4 * n / 5 < n := by
  subst hq
  simp only [adjust]
  rw [if_neg (by norm_num), if_neg (by omega), if_pos hn]
  exact ⟨rfl, by omega⟩

/-- The adjustment fixes a state exactly when quality is 50 and an applied
width is at most 2000. -/
theorem step_fixed_iff (p : Int × Option Nat) :
    step p = p ↔ p.1 = 50 ∧ p.2.getD 0 ≠ 0 ∧ p.2.getD 0 ≤ 2000 := by
  obtain ⟨q, w⟩ := p
  cases w with
  | none =>
    simp only [step, adjust, Prod.ext_iff, Option.getD_none]
    split_ifs <;> simp <;> omega
  | some n =>
    simp only [step, adjust, Prod.ext_iff, Option.getD_some]
    split_ifs <;> simp <;> omega

/-! ### Fast-path lemmas -/

/-- The floor of a real square root is the integer square root of the
floor. -/
theorem natFloor_real_sqrt (x : ℝ) (hx : 0 ≤ x) :
    ⌊Real.sqrt x⌋₊ = Nat.sqrt ⌊x⌋₊ := by
  rw [Nat.floor_eq_iff (Real.sqrt_nonneg x)]
  constructor
  · rw [Real.le_sqrt (by positivity) hx]
    calc ((Nat.sqrt ⌊x⌋₊ : ℝ)) ^ 2
        = ((Nat.sqrt ⌊x⌋₊ ^ 2 : ℕ) : ℝ) := by push_cast; ring
      _ ≤ ((⌊x⌋₊ : ℕ) : ℝ) := by exact_mod_cast Nat.sqrt_le' ⌊x⌋₊
      _ ≤ x := Nat.floor_le hx
  · rw [Real.sqrt_lt' (by positivity)]
    calc x < ⌊x⌋₊ + 1 := Nat.lt_floor_add_one x
      _ ≤ (((Nat.sqrt ⌊x⌋₊ + 1) * (Nat.sqrt ⌊x⌋₊ + 1) : ℕ) : ℝ) := by
          exact_mod_cast Nat.lt_succ_sqrt ⌊x⌋₊
      _ = (((Nat.sqrt ⌊x⌋₊ : ℝ)) + 1) ^ 2 := by push_cast; ring

/-- `correctedWidth` computes exactly
`⌊targetWidth * √(budget / size) * 0.95⌋`. -/
theorem correctedWidth_eq_floor (tw L : Nat) (hL : 0 < L) :
    correctedWidth tw L =
      ⌊(tw : ℝ) * Real.sqrt ((MAX_OUTPUT_SIZE : ℝ) / (L : ℝ)) * 0.95⌋₊ := by
  have hL' : ((L : ℝ)) ≠ 0 := by positivity
  have key : (tw : ℝ) * Real.sqrt ((MAX_OUTPUT_SIZE : ℝ) / (L : ℝ)) * 0.95
      = Real.sqrt (((361 * tw * tw * MAX_OUTPUT_SIZE : ℕ) : ℝ) /
          ((400 * L : ℕ) : ℝ)) := by
    rw [show (((361 * tw * tw * MAX_OUTPUT_SIZE : ℕ) : ℝ) /
          ((400 * L : ℕ) : ℝ))
        = ((tw : ℝ)) ^ 2 * (((MAX_OUTPUT_SIZE : ℝ) / (L : ℝ)) *
          (0.95 : ℝ) ^ 2) by
      field_simp
      ring_nf]
    rw [Real.sqrt_mul (by positivity), Real.sqrt_sq (by positivity),
      Real.sqrt_mul (by positivity), Real.sqrt_sq (by norm_num)]
    ring
  rw [key, natFloor_real_sqrt _ (by positivity), Nat.floor_div_nat,
    Nat.floor_natCast]
  rfl

/-- `correctedQuality` computes exactly `max(60, ⌊quality * 0.85⌋)`. -/
theorem correctedQuality_eq_floor (q : Int) :
    correctedQuality q = max 60 ⌊(q : ℝ) * 0.85⌋ := by
  have h : ⌊(q : ℝ) * 0.85⌋ = 17 * q / 20 := by
    rw [show (q : ℝ) * 0.85 = (17 * (q : ℝ)) / 20 by
      rw [show (0.85 : ℝ) = 17 / 20 by norm_num]; ring]
    rw [Int.floor_eq_iff]
    constructor
    · rw [le_div_iff₀ (by norm_num : (0:ℝ) < 20)]
      exact_mod_cast (by omega : (17 * q / 20) * 20 ≤ 17 * q)
    · rw [div_lt_iff₀ (by norm_num : (0:ℝ) < 20)]
      exact_mod_cast (by omega : 17 * q < (17 * q / 20 + 1) * 20)
  rw [h]
  rfl

/-- Above 100 megapixels the capped target width is at most 10000. -/
theorem capTargetWidth_le_first (b p : Nat) (h : 100000000 < p) :
    capTargetWidth b p ≤ 10000 := by
  unfold capTargetWidth
  rw [if_pos h]
  exact min_le_right b 10000

/-- Between 50 and 100 megapixels the capped target width is at most
12000. -/
theorem capTargetWidth_le_second (b p : Nat) (h1 : p ≤ 100000000)
    (h2 : 50000000 < p) :
    capTargetWidth b p ≤ 12000 := by
  unfold capTargetWidth
  rw [if_neg (by omega), if_pos h2]
  exact min_le_right b 12000

/-- Between 20 and 50 megapixels the capped target width is at most
15000. -/
theorem capTargetWidth_le_third (b p : Nat) (h1 : p ≤ 50000000)
    (h2 : 20000000 < p) :
    capTargetWidth b p ≤ 15000 := by
  unfold capTargetWidth
  rw [if_neg (by omega), if_neg (by omega), if_pos h2]
  exact min_le_right b 15000

/-! ### Claim theorems -/

/-- **C1.** Under the primary iterative policy the next `(quality, width)`
pair after an over-budget attempt is computed by exactly the spec's cascade,
in strict priority order: quality above 60 drops by 10; else, with no width
constraint yet applied, width becomes 8000; else a width above 2000 becomes
`⌊width * 0.8⌋`; else quality becomes `max(50, quality - 5)`. -/
theorem adjust_eq_specAdjust : ∀ (q : Int) (w : Option Nat),
    adjust q w = specAdjust q w := by
  intro q w
  cases w with
  | none => simp [adjust, specAdjust]
  | some n =>
    by_cases h1 : 60 < q
    · simp [adjust, specAdjust, h1]
    · by_cases h2 : n = 0
      · simp [adjust, specAdjust, h1, h2]
      · by_cases h3 : 2000 < n
        · simp [adjust, specAdjust, h1, h2, h3, floor_mul_four_fifths]
        · simp [adjust, specAdjust, h1, h2, h3]

/-- **C2.** The iterative controller terminates for every oracle, format,
initial quality and optional width, performing at most 15 encode
attempts. -/
theorem ensureMaxSize_attempts_le_fifteen
    (enc : Option Codec → Int → Option Nat → Nat) (format : String)
    (q0 : Int) (w0 : Option Nat) :
    (ensureMaxSize enc format q0 w0).attempts ≤ 15 :=
  runLoop_length_le (enc (selectCodec format)) 15 (q0, w0)

/-- **C3.** When every encode exceeds the byte budget, the controller still
returns the buffer of its 15th (last) attempt — the one encoded with the
parameters reached after 14 adjustments — rather than failing or returning
nothing; the budget flag ends false. -/
theorem ensureMaxSize_exhaustion_returns_last
    (enc : Option Codec → Int → Option Nat → Nat) (format : String)
    (q0 : Int) (w0 : Option Nat)
    (hover : ∀ q w, MAX_OUTPUT_SIZE < enc (selectCodec format) q w) :
    (ensureMaxSize enc format q0 w0).buffer = some (step^[14] (q0, w0)) ∧
    (ensureMaxSize enc format q0 w0).attempts = 15 ∧
    (ensureMaxSize enc format q0 w0).met = false := by
  have hlen := (runLoop_of_over (enc (selectCodec format)) hover 15 (q0, w0)).1
  have hmet := (runLoop_of_over (enc (selectCodec format)) hover 15 (q0, w0)).2
  refine ⟨?_, hlen, hmet⟩
  show (runLoop (enc (selectCodec format)) 15 (q0, w0)).1.getLast? = _
  rw [List.getLast?_eq_getElem?, hlen]
  have h14 : (14 : Nat) < (runLoop (enc (selectCodec format)) 15 (q0, w0)).1.length := by
    rw [hlen]; norm_num
  rw [show (15 - 1 : Nat) = 14 from rfl, List.getElem?_eq_getElem h14]
  rw [runLoop_getElem (enc (selectCodec format)) 15 (q0, w0) _ 14
    (List.getElem?_eq_getElem h14)]

/-- Witness for C3 at a concrete input: with an oracle always one byte over
budget, initial quality 80 and no width, the invocation returns the buffer
of attempt parameters `(50, 1676)` after 15 attempts. -/
theorem ensureMaxSize_exhaustion_returns_last_witness :
    (ensureMaxSize encAlwaysOver "webp" 80 none).buffer =
      some (50, some 1676) ∧
    (ensureMaxSize encAlwaysOver "webp" 80 none).attempts = 15 ∧
    (ensureMaxSize encAlwaysOver "webp" 80 none).met = false :=
  ensureMaxSize_exhaustion_returns_last encAlwaysOver "webp" 80 none
    (fun _ _ => Nat.lt_succ_self MAX_OUTPUT_SIZE)

/-- **C4.** If the first encode, with the caller's initial quality and
requested width, meets the byte budget, the controller returns that buffer
immediately: exactly one encode attempt is performed. -/
theorem ensureMaxSize_first_fit_single_attempt
    (enc : Option Codec → Int → Option Nat → Nat) (format : String)
    (q0 : Int) (w0 : Option Nat)
    (hfit : enc (selectCodec format) q0 w0 ≤ MAX_OUTPUT_SIZE) :
    (ensureMaxSize enc format q0 w0).trace = [(q0, w0)] ∧
    (ensureMaxSize enc format q0 w0).attempts = 1 ∧
    (ensureMaxSize enc format q0 w0).buffer = some (q0, w0) ∧
    (ensureMaxSize enc format q0 w0).met = true := by
  have h : runLoop (enc (selectCodec format)) 15 (q0, w0) = ([(q0, w0)], true) := by
    rw [show (15 : Nat) = 14 + 1 from rfl, runLoop_succ, if_pos hfit]
  refine ⟨?_, ?_, ?_, ?_⟩ <;>
    simp [ensureMaxSize, FitResult.buffer, FitResult.attempts, h]

/-- Witness for C4 at a concrete input: an oracle whose first encode is
empty returns after the single attempt `(80, none)`. -/
theorem ensureMaxSize_first_fit_single_attempt_witness :
    (ensureMaxSize encAlwaysSmall "webp" 80 none).trace = [(80, none)] ∧
    (ensureMaxSize encAlwaysSmall "webp" 80 none).attempts = 1 ∧
    (ensureMaxSize encAlwaysSmall "webp" 80 none).buffer = some (80, none) ∧
    (ensureMaxSize encAlwaysSmall "webp" 80 none).met = true :=
  ensureMaxSize_first_fit_single_attempt encAlwaysSmall "webp" 80 none
    (Nat.zero_le MAX_OUTPUT_SIZE)

/-- **C5 (amended).** Across consecutive attempts an applied (nonzero)
width never becomes unapplied and never grows; and once quality has reached
the floor 50, the width strictly decreases on the next attempt as long as
it exceeds 2000 (the claim's unconditional strict decrease fails at widths
of at most 2000, where the parameters stay unchanged). -/
theorem ensureMaxSize_width_monotone
    (enc : Option Codec → Int → Option Nat → Nat) (format : String)
    (q0 : Int) (w0 : Option Nat) (i : Nat) (p p' : Int × Option Nat)
    (hp : (ensureMaxSize enc format q0 w0).trace[i]? = some p)
    (hp' : (ensureMaxSize enc format q0 w0).trace[i + 1]? = some p') :
    (p.2.getD 0 ≠ 0 → p'.2.getD 0 ≠ 0 ∧ p'.2.getD 0 ≤ p.2.getD 0) ∧
    (p.1 = 50 → 2000 < p.2.getD 0 →
      p'.2 = some (4 * p.2.getD 0 / 5) ∧
      4 * p.2.getD 0 / 5 < p.2.getD 0) := by
  have e1 := runLoop_getElem (enc (selectCodec format)) 15 (q0, w0) p i hp
  have e2 := runLoop_getElem (enc (selectCodec format)) 15 (q0, w0) p' (i + 1) hp'
  have e3 : p' = step p := by
    rw [e2, Function.iterate_succ_apply', ← e1]
  subst e3
  obtain ⟨q, w⟩ := p
  cases w with
  | none => simp [step, adjust]
  | some n =>
    constructor
    · intro hn
      have h := adjust_width_mono q n (by simpa using hn)
      simpa [step] using h
    · intro hq h2000
      have h := adjust_width_shrink q n (by simpa using hq) (by simpa using h2000)
      simpa [step] using h

/-- Witness for C5 at a concrete input: attempts 2 and 3 of an always-over
run starting at quality 80 and width 3000 are `(60, 3000)` and
`(60, 2400)`; the applied width stays applied and does not grow. -/
theorem ensureMaxSize_width_monotone_witness :
    (ensureMaxSize encAlwaysOver "webp" 80 (some 3000)).trace[2]? =
      some (60, some 3000) ∧
    (ensureMaxSize encAlwaysOver "webp" 80 (some 3000)).trace[3]? =
      some (60, some 2400) ∧
    ((3000 : Nat) ≠ 0 → (2400 : Nat) ≠ 0 ∧ (2400 : Nat) ≤ 3000) :=
  ⟨by decide, by decide,
   (ensureMaxSize_width_monotone encAlwaysOver "webp" 80 (some 3000) 2
     (60, some 3000) (60, some 2400) (by decide) (by decide)).1⟩

/-- Counterexample to C5 as stated: at quality 50 (the floor) and width
2000, the next attempt keeps width 2000 — the width does not strictly
decrease once quality has reached the floor. -/
theorem ensureMaxSize_width_constant_at_floor_cex :
    (ensureMaxSize encAlwaysOver "webp" 50 (some 2000)).trace[0]? =
      some (50, some 2000) ∧
    (ensureMaxSize encAlwaysOver "webp" 50 (some 2000)).trace[1]? =
      some (50, some 2000) := by
  decide

/-- **C6 (amended).** A consecutive attempt repeats the previous attempt's
exact `(quality, width)` parameters precisely when quality is 50 and an
applied width is at most 2000; in every other state the adjustment strictly
changes quality and/or width (the claim's "never retried" is false in that
terminal region). -/
theorem ensureMaxSize_identical_retry_iff
    (enc : Option Codec → Int → Option Nat → Nat) (format : String)
    (q0 : Int) (w0 : Option Nat) (i : Nat) (p p' : Int × Option Nat)
    (hp : (ensureMaxSize enc format q0 w0).trace[i]? = some p)
    (hp' : (ensureMaxSize enc format q0 w0).trace[i + 1]? = some p') :
    p' = p ↔ p.1 = 50 ∧ p.2.getD 0 ≠ 0 ∧ p.2.getD 0 ≤ 2000 := by
  have e1 := runLoop_getElem (enc (selectCodec format)) 15 (q0, w0) p i hp
  have e2 := runLoop_getElem (enc (selectCodec format)) 15 (q0, w0) p' (i + 1) hp'
  have e3 : p' = step p := by
    rw [e2, Function.iterate_succ_apply', ← e1]
  rw [e3]
  exact step_fixed_iff p

/-- Witness for C6 at a concrete input: attempts 0 and 1 of an always-over
run from `(50, 1000)` are both `(50, 1000)`, and the characterisation holds
there. -/
theorem ensureMaxSize_identical_retry_iff_witness :
    (ensureMaxSize encAlwaysOver "webp" 50 (some 1000)).trace[0]? =
      some (50, some 1000) ∧
    (ensureMaxSize encAlwaysOver "webp" 50 (some 1000)).trace[1]? =
      some (50, some 1000) ∧
    (((50 : Int), (some 1000 : Option Nat)) = ((50 : Int), (some 1000 : Option Nat)) ↔
      (50 : Int) = 50 ∧ (1000 : Nat) ≠ 0 ∧ (1000 : Nat) ≤ 2000) :=
  ⟨by decide, by decide,
   ensureMaxSize_identical_retry_iff encAlwaysOver "webp" 50 (some 1000) 0
     (50, some 1000) (50, some 1000) (by decide) (by decide)⟩

/-- Counterexample to C6 as stated: from `(50, 1500)` the always-over run
retries attempt 1 with exactly the parameters of attempt 0. -/
theorem ensureMaxSize_identical_params_retried_cex :
    (ensureMaxSize encAlwaysOver "webp" 50 (some 1500)).trace[0]? =
      some (50, some 1500) ∧
    (ensureMaxSize encAlwaysOver "webp" 50 (some 1500)).trace[1]? =
      some (50, some 1500) := by
  decide

/-- **C7 (amended).** Provided the caller's initial quality is at least 50,
every attempt of the invocation uses a quality of at least 50 (the claim's
unconditional floor fails for initial qualities below 50, which attempt 0
uses unchanged). -/
theorem ensureMaxSize_quality_floor_of_init
    (enc : Option Codec → Int → Option Nat → Nat) (format : String)
    (q0 : Int) (w0 : Option Nat) (h50 : 50 ≤ q0) (i : Nat)
    (p : Int × Option Nat)
    (hp : (ensureMaxSize enc format q0 w0).trace[i]? = some p) :
    50 ≤ p.1 := by
  rw [runLoop_getElem (enc (selectCodec format)) 15 (q0, w0) p i hp]
  clear hp
  induction i with
  | zero => simpa using h50
  | succ j ih =>
    rw [Function.iterate_succ_apply']
    exact adjust_quality_ge _ _ ih

/-- Witness for C7 at a concrete input: from initial quality 80 (≥ 50),
attempt 2 runs at quality 60, which is at least 50. -/
theorem ensureMaxSize_quality_floor_of_init_witness :
    (50 : Int) ≤ 80 ∧
    (ensureMaxSize encAlwaysOver "webp" 80 none).trace[2]? =
      some (60, none) ∧
    (50 : Int) ≤ 60 :=
  ⟨by decide, by decide,
   ensureMaxSize_quality_floor_of_init encAlwaysOver "webp" 80 none
     (by decide) 2 (60, none) (by decide)⟩

/-- Counterexample to C7 as stated: an invocation with initial quality 30
performs attempt 0 at quality 30, below the floor of 50. -/
theorem ensureMaxSize_quality_below_floor_cex :
    (ensureMaxSize encAlwaysOver "webp" 30 none).trace[0]? =
      some (30, none) ∧
    ¬ (50 : Int) ≤ 30 := by
  decide

/-- **C9 (amended).** For an unrecognised format token the `switch` has no
`default` case: no format-specific encoder is selected, no error is raised,
and the pipeline still performs at least one encode (with the instance's
own format) — the request does not fail and attempts are made. -/
theorem ensureMaxSize_unrecognized_format_passthrough
    (enc : Option Codec → Int → Option Nat → Nat) (format : String)
    (q0 : Int) (w0 : Option Nat) (h : selectCodec format = none) :
    (ensureMaxSize enc format q0 w0).codec = none ∧
    1 ≤ (ensureMaxSize enc format q0 w0).attempts :=
  ⟨h, runLoop_length_pos (enc (selectCodec format)) 14 (q0, w0)⟩

/-- Witness for C9 at a concrete input: the token `gif` selects no codec,
and the invocation still encodes. -/
theorem ensureMaxSize_unrecognized_format_passthrough_witness :
    selectCodec "gif" = none ∧
    (ensureMaxSize encAlwaysSmall "gif" 80 none).codec = none ∧
    1 ≤ (ensureMaxSize encAlwaysSmall "gif" 80 none).attempts :=
  ⟨by decide,
   (ensureMaxSize_unrecognized_format_passthrough encAlwaysSmall "gif" 80
     none (by decide)).1,
   (ensureMaxSize_unrecognized_format_passthrough encAlwaysSmall "gif" 80
     none (by decide)).2⟩

/-- Counterexample to C9 as stated: a `gif` request does not fail with an
`UnsupportedFormat` error and zero attempts — one encode attempt is made
and its buffer is returned. -/
theorem ensureMaxSize_gif_encodes_anyway_cex :
    selectCodec "gif" = none ∧
    (ensureMaxSize encAlwaysSmall "gif" 80 none).attempts = 1 ∧
    (ensureMaxSize encAlwaysSmall "gif" 80 none).buffer = some (80, none) ∧
    (ensureMaxSize encAlwaysSmall "gif" 80 none).met = true := by
  decide

/-- **C10.** For the optimize, resize and convert routes, a `quality` form
field that is absent, non-numeric, or parses to 0 makes the controller run
with quality 80 — attempt 0 of every route uses quality 80, with no
validation error. -/
theorem routes_quality_default_eighty
    (enc : Option Codec → Int → Option Nat → Nat) (b : ReqBody)
    (h : b.quality = none ∨ parseIntJS b.quality = none ∨
      parseIntJS b.quality = some 0) :
    (optimizeRoute enc b).trace[0]? = some (80, none) ∧
    ((resizeRoute enc b).trace[0]?).map Prod.fst = some 80 ∧
    (convertRoute enc b).trace[0]? = some (80, none) := by
  have hq : requestQuality b = 80 := by
    rcases h with h | h | h
    · simp [requestQuality, h, parseIntJS, jsOrInt]
    · simp [requestQuality, h, jsOrInt]
    · simp [requestQuality, h, jsOrInt]
  refine ⟨?_, ?_, ?_⟩
  · show (runLoop (enc (selectCodec (jsOrStr b.format "webp"))) 15
      (requestQuality b, (none : Option Nat))).1[0]? = some (80, none)
    rw [hq]
    exact runLoop_head (enc (selectCodec (jsOrStr b.format "webp"))) 14
      ((80 : Int), none)
  · show ((runLoop (enc (selectCodec (jsOrStr b.format "webp"))) 15
      (requestQuality b, requestWidth b)).1[0]?).map Prod.fst = some 80
    rw [hq, show (15 : Nat) = 14 + 1 from rfl,
      runLoop_head (enc (selectCodec (jsOrStr b.format "webp"))) 14
        ((80 : Int), requestWidth b)]
    rfl
  · show (runLoop (enc (selectCodec (jsOrStr b.format "webp"))) 15
      (requestQuality b, (none : Option Nat))).1[0]? = some (80, none)
    rw [hq]
    exact runLoop_head (enc (selectCodec (jsOrStr b.format "webp"))) 14
      ((80 : Int), none)

/-- Witness for C10 at a concrete input: a request whose `quality` field is
the string "0" runs every route's attempt 0 at quality 80. -/
theorem routes_quality_default_eighty_witness :
    parseIntJS bodyQualityZero.quality = some 0 ∧
    (optimizeRoute encAlwaysSmall bodyQualityZero).trace[0]? =
      some (80, none) ∧
    ((resizeRoute encAlwaysSmall bodyQualityZero).trace[0]?).map Prod.fst =
      some 80 ∧
    (convertRoute encAlwaysSmall bodyQualityZero).trace[0]? =
      some (80, none) :=
  ⟨by decide,
   (routes_quality_default_eighty encAlwaysSmall bodyQualityZero
     (Or.inr (Or.inr (by decide)))).1,
   (routes_quality_default_eighty encAlwaysSmall bodyQualityZero
     (Or.inr (Or.inr (by decide)))).2.1,
   (routes_quality_default_eighty encAlwaysSmall bodyQualityZero
     (Or.inr (Or.inr (by decide)))).2.2⟩

/-- **C8.** Under the fast-path policy the target width is capped before
the first encode by the pixel-count breakpoints (over 100MP caps at 10000,
over 50MP at 12000, over 20MP at 15000); a first encode within budget ends
the invocation after one encode, and an over-budget first encode triggers
exactly one correction — width scaled by `sqrt(byteBudget / actualSize) * 0.95`
(floor-rounded) and quality scaled by `0.85` with a floor of 60 — followed
by a second, final encode: at most two encode operations occur. -/
theorem fastOptimize_two_encode_policy
    (enc : Option Codec → Int → Option Nat → Nat) (format : String)
    (q : Int) (mw : Option Nat) (meta : ImageMeta) :
    (fastOptimize enc format q mw meta).encodes ≤ 2 ∧
    (fastOptimize enc format q mw meta).firstParams =
      (q, fastFirstWidth mw meta) ∧
    (100000000 < meta.width * meta.height →
      (fastOptimize enc format q mw meta).targetWidth ≤ 10000) ∧
    (50000000 < meta.width * meta.height →
      meta.width * meta.height ≤ 100000000 →
      (fastOptimize enc format q mw meta).targetWidth ≤ 12000) ∧
    (20000000 < meta.width * meta.height →
      meta.width * meta.height ≤ 50000000 →
      (fastOptimize enc format q mw meta).targetWidth ≤ 15000) ∧
    (enc (selectCodec format) q (fastFirstWidth mw meta) ≤ MAX_OUTPUT_SIZE →
      (fastOptimize enc format q mw meta).encodes = 1) ∧
    (MAX_OUTPUT_SIZE < enc (selectCodec format) q (fastFirstWidth mw meta) →
      (fastOptimize enc format q mw meta).encodes = 2 ∧
      (fastOptimize enc format q mw meta).finalParams =
        (max 60 ⌊(q : ℝ) * 0.85⌋,
         some ⌊(fastTargetWidth mw meta : ℝ) *
           Real.sqrt ((MAX_OUTPUT_SIZE : ℝ) /
             (enc (selectCodec format) q (fastFirstWidth mw meta) : ℝ)) *
           0.95⌋₊)) := by
  by_cases hb : enc (selectCodec format) q (fastFirstWidth mw meta) ≤
      MAX_OUTPUT_SIZE
  · have hfo : fastOptimize enc format q mw meta =
        ⟨selectCodec format, fastTargetWidth mw meta,
         (q, fastFirstWidth mw meta), (q, fastFirstWidth mw meta), 1, true⟩ := by
      unfold fastOptimize
      rw [if_pos hb]
    rw [hfo]
    refine ⟨by norm_num, rfl, ?_, ?_, ?_, fun _ => rfl, ?_⟩
    · intro h
      exact capTargetWidth_le_first _ _ h
    · intro h1 h2
      exact capTargetWidth_le_second _ _ h2 h1
    · intro h1 h2
      exact capTargetWidth_le_third _ _ h2 h1
    · intro h
      exact absurd hb (by omega)
  · have hL : 0 < enc (selectCodec format) q (fastFirstWidth mw meta) :=
      Nat.lt_of_le_of_lt (Nat.zero_le MAX_OUTPUT_SIZE) (Nat.lt_of_not_le hb)
    have hfo : fastOptimize enc format q mw meta =
        ⟨selectCodec format, fastTargetWidth mw meta,
         (q, fastFirstWidth mw meta),
         (correctedQuality q,
          some (correctedWidth (fastTargetWidth mw meta)
            (enc (selectCodec format) q (fastFirstWidth mw meta)))),
         2,
         enc (selectCodec format) (correctedQuality q)
           (some (correctedWidth (fastTargetWidth mw meta)
             (enc (selectCodec format) q (fastFirstWidth mw meta)))) ≤
           MAX_OUTPUT_SIZE⟩ := by
      unfold fastOptimize
      rw [if_neg hb]
    rw [hfo]
    refine ⟨by norm_num, rfl, ?_, ?_, ?_, ?_, ?_⟩
    · intro h
      exact capTargetWidth_le_first _ _ h
    · intro h1 h2
      exact capTargetWidth_le_second _ _ h2 h1
    · intro h1 h2
      exact capTargetWidth_le_third _ _ h2 h1
    · intro h
      exact absurd h (by omega)
    · intro _
      refine ⟨rfl, ?_⟩
      show (correctedQuality q,
        some (correctedWidth (fastTargetWidth mw meta)
          (enc (selectCodec format) q (fastFirstWidth mw meta)))) = _
      rw [correctedQuality_eq_floor, correctedWidth_eq_floor _ _ hL]

end ImageOptimizer
